import Mathlib

/-
Verification development for the flo LAN proxy / node game dispatcher.

This file shallowly embeds the two core components of the repository:

* `src/crates/node/src/game/host/dispatch.rs` — the per-game dispatcher
  (namespace `NodeHost`): per-player routing table, mute list, ack
  counters, broadcast fan-out, and the state-task message handler.
* `src/binaries/flo/src/lan/game/proxy.rs` — the client-side LAN proxy's
  load-screen handler (namespace `LanProxy`).

Channels are modelled explicitly: a bounded mpsc sink is a `Sink` with a
closed flag, a capacity and a queue; `try_send` on a closed sink fails
with `Closed`, on a sink at capacity with `Full`, and otherwise appends
to the queue.  The async (awaiting) mpsc send used for the action channel
waits for capacity, so in the embedding it fails only when the channel is
closed.  Successful pushes into per-player sinks are additionally
recorded in an observation log `sent_log : List (Int × Packet)` so that
theorems can speak about which frames which player received and in which
order.  Events pushed into the dispatcher's `GameEventSender` are
returned as an explicit list.
-/

/-- Per-player slot-client status (crate `flo-types`), as consumed by
`dispatch.rs` and `proxy.rs`. -/
inductive SlotClientStatus where
  | pending
  | connected
  | joined
  | loading
  | loaded
  | disconnected
  | left
deriving DecidableEq, Repr

/-- Overall game status reported by the node. -/
inductive NodeGameStatus where
  | created
  | waiting
  | loading
  | running
  | ended
deriving DecidableEq, Repr

/-- Source tag on a `PlayerStatusChange` game event. -/
inductive SlotClientStatusUpdateSource where
  | node
  | client
deriving DecidableEq, Repr

/-- Ban flags attached to a player slot; `dispatch.rs` only inspects
`Chat`. -/
inductive PlayerBanType where
  | chat
deriving DecidableEq, Repr

/-- W3GS leave reason carried by `LeaveReq` / `PlayerLeft`. -/
inductive LeaveReason where
  | leaveDisconnect
  | other (code : Nat)
deriving DecidableEq, Repr

/-- One player action, as carried by `OutgoingAction` and re-emitted
inside `IncomingAction` ticks.  `player_id` is the 1-based slot player
id; `data` are the opaque action bytes. -/
structure PlayerAction where
  player_id : Nat
  data : List Nat
deriving DecidableEq, Repr

/-- Decoded body of a `ChatToHost` packet: the 1-based target slot
player ids, whether the message is an in-game chat (vs. a lobby chat),
and the text. -/
structure ChatMessage where
  to_players : List Nat
  is_in_game_chat : Bool
  message : String
deriving DecidableEq, Repr

/-- W3GS packet type ids relevant to the embedded code. -/
inductive PacketTypeId where
  | leaveReq
  | leaveAck
  | playerLeft
  | chatToHost
  | chatFromHost
  | outgoingKeepAlive
  | outgoingAction
  | incomingAction
  | playerLoaded
  | gameLoadedSelf
  | otherId (n : Nat)
deriving DecidableEq, Repr

/-- Decoded payloads of the packets the embedded code constructs or
decodes.  `emptyPayload` stands for any payload the code never looks
inside. -/
inductive Payload where
  | leaveReq (reason : LeaveReason)
  | leaveAck
  | playerLeft (player_id : Nat) (reason : LeaveReason)
  | chat (c : ChatMessage)
  | chatPrivateToSelf (slot_player_id : Nat) (message : String)
  | outgoingAction (data : List Nat)
  | incomingAction (time_increment_ms : Nat) (actions : List PlayerAction)
  | playerLoaded (player_id : Nat)
  | emptyPayload (t : PacketTypeId)
deriving DecidableEq, Repr

/-- A W3GS packet: a header type id plus a payload.  `dispatch_chat`
rewrites the header type id in place, so the two are kept separate. -/
structure Packet where
  type_id : PacketTypeId
  payload : Payload
deriving DecidableEq, Repr

/-- First-match lookup in an association list (the embedding of
`BTreeMap::get` / `get_mut`; keys are unique in every state built by the
code, which theorems record as a `Nodup` hypothesis where needed). -/
def lookupKey {α β : Type} [DecidableEq α] : List (α × β) → α → Option β
  | [], _ => none
  | (k, v) :: rest, key => if k = key then some v else lookupKey rest key

/-- First-match update in an association list (the embedding of writing
through `BTreeMap::get_mut`). -/
def updateKey {α β : Type} [DecidableEq α] : List (α × β) → α → β → List (α × β)
  | [], _, _ => []
  | (k, v) :: rest, key, newv =>
      if k = key then (k, newv) :: rest else (k, v) :: updateKey rest key newv

/-- Whether an association list has a binding for `key`
(`BTreeMap::get(..).is_some()`). -/
def containsKey {α β : Type} [DecidableEq α] (m : List (α × β)) (key : α) : Bool :=
  (lookupKey m key).isSome


namespace NodeHost

/-- Error type of the node crate, restricted to the variants
`dispatch.rs` can produce. -/
inductive Error where
  | cancelled
  | playerNotFoundInGame
  | decodeError
deriving DecidableEq, Repr

/-- Result variants returned by `State::dispatch`. -/
inductive DispatchResult where
  | continue
  | action (a : PlayerAction)
  | lagged
deriving DecidableEq, Repr

/-- Game events pushed into the dispatcher's outbound `GameEventSender`. -/
inductive GameEvent where
  | playerStatusChange (player_id : Int) (status : SlotClientStatus)
      (source : SlotClientStatusUpdateSource)
deriving DecidableEq, Repr

/-- A bounded mpsc sender of frames to one player: closed flag, capacity
and the queued frames.  `try_send` semantics are given by
`Sink.trySend`. -/
structure Sink where
  closed : Bool
  capacity : Nat
  queue : List Packet
deriving DecidableEq, Repr

/-- Error cases of `PlayerDispatchInfo::send`. -/
inductive PlayerSendError where
  | notConnected
  | closedSink
  | channelFull
deriving DecidableEq, Repr

/-- `tokio::sync::mpsc::Sender::try_send`: fails with `Closed` on a
closed channel, with `Full` at capacity, and otherwise enqueues. -/
def Sink.trySend (s : Sink) (f : Packet) : Sink × Option PlayerSendError :=
  if s.closed then (s, some .closedSink)
  else if s.queue.length < s.capacity then
    ({ s with queue := s.queue ++ [f] }, none)
  else (s, some .channelFull)

/-- A sink accepts a frame when it is open and below capacity. -/
def Sink.accepts (s : Sink) : Prop :=
  s.closed = false ∧ s.queue.length < s.capacity

instance (s : Sink) : Decidable s.accepts := by
  unfold Sink.accepts; infer_instance

/-- The dispatcher's slot description: 0-based slot index `id` plus the
player occupying it (`PlayerSlot` of the node crate, restricted to the
fields `dispatch.rs` reads). -/
structure PlayerRef where
  player_id : Int
  ban_list : List PlayerBanType
deriving DecidableEq, Repr

/-- A slot of the dispatcher's slot list. -/
structure PlayerSlot where
  id : Nat
  player : PlayerRef
deriving DecidableEq, Repr

/-- Per-player routing entry (`PlayerDispatchInfo`). -/
structure PlayerDispatchInfo where
  ticks : Nat
  pending_ack_packets : List Packet
  tx : Option Sink
  ban_list : List PlayerBanType
  slot_player_id : Nat
deriving DecidableEq, Repr

/-- `PlayerDispatchInfo::new`: the 1-based slot player id is
`(slot.id + 1) as u8`. -/
def PlayerDispatchInfo.new (slot : PlayerSlot) : PlayerDispatchInfo :=
  { ticks := 0
    pending_ack_packets := []
    tx := none
    ban_list := slot.player.ban_list
    slot_player_id := (slot.id + 1) % 256 }

/-- `PlayerDispatchInfo::connected`. -/
def PlayerDispatchInfo.connected (i : PlayerDispatchInfo) : Bool :=
  i.tx.isSome

/-- `PlayerDispatchInfo::send`: try-send on the player's sink if
present. -/
def PlayerDispatchInfo.send (i : PlayerDispatchInfo) (f : Packet) :
    PlayerDispatchInfo × Option PlayerSendError :=
  match i.tx with
  | none => (i, some .notConnected)
  | some sink =>
      match sink.trySend f with
      | (sink2, e) => ({ i with tx := some sink2 }, e)

/-- `PlayerDispatchInfo::disconnect`: drop the sink. -/
def PlayerDispatchInfo.disconnect (i : PlayerDispatchInfo) : PlayerDispatchInfo :=
  { i with tx := none }

/-- Broadcast target predicates of `broadcast.rs`. -/
inductive BroadcastTarget where
  | everyone
  | allowList (ids : List Int)
  | denyList (ids : List Int)
deriving DecidableEq, Repr

/-- `BroadcastTarget::contains`. -/
def BroadcastTarget.containsId : BroadcastTarget → Int → Bool
  | .everyone, _ => true
  | .allowList ids, pid => ids.contains pid
  | .denyList ids, pid => !(ids.contains pid)

/-- The lock-protected `Shared` structure: the per-player map, plus an
observation log of every frame successfully pushed into a player sink
(in push order). -/
structure Shared where
  game_id : Int
  map : List (Int × PlayerDispatchInfo)
  sent_log : List (Int × Packet)
deriving DecidableEq, Repr

/-- `Shared::new`: one `PlayerDispatchInfo` per slot, keyed by player
id. -/
def Shared.new (game_id : Int) (slots : List PlayerSlot) : Shared :=
  { game_id
    map := slots.map (fun slot => (slot.player.player_id, PlayerDispatchInfo.new slot))
    sent_log := [] }

/-- First pass of `Shared::broadcast`: walk the player map in order,
skip players not matching the target and players with no sink, try-send
to the rest; return the updated map, the recorded `(player_id, error)`
pairs and the log of successful pushes. -/
def broadcastPass (pkt : Packet) (t : BroadcastTarget) :
    List (Int × PlayerDispatchInfo) →
      List (Int × PlayerDispatchInfo) × List (Int × PlayerSendError) × List (Int × Packet)
  | [] => ([], [], [])
  | (pid, info) :: rest =>
      match broadcastPass pkt t rest with
      | (restMap, restErrs, restLog) =>
          if t.containsId pid then
            if info.connected then
              match info.send pkt with
              | (info2, none) => ((pid, info2) :: restMap, restErrs, (pid, pkt) :: restLog)
              | (info2, some e) => ((pid, info2) :: restMap, (pid, e) :: restErrs, restLog)
            else ((pid, info) :: restMap, restErrs, restLog)
          else ((pid, info) :: restMap, restErrs, restLog)

/-- Second pass of `Shared::broadcast`: for each recorded send error
that is `Closed` or `ChannelFull`, look the player up (`get_player`, an
error if absent — mutations so far are kept) and drop their sink. -/
def applySendErrors :
    List (Int × PlayerDispatchInfo) → List (Int × PlayerSendError) →
      List (Int × PlayerDispatchInfo) × Option Error
  | m, [] => (m, none)
  | m, (pid, e) :: rest =>
      match e with
      | .closedSink =>
          match lookupKey m pid with
          | some info => applySendErrors (updateKey m pid info.disconnect) rest
          | none => (m, some .playerNotFoundInGame)
      | .channelFull =>
          match lookupKey m pid with
          | some info => applySendErrors (updateKey m pid info.disconnect) rest
          | none => (m, some .playerNotFoundInGame)
      | .notConnected => applySendErrors m rest

/-- `Shared::broadcast`.  Any error of the second pass is returned to
the caller (the state kept as mutated so far); theorems show it is in
fact always `none`. -/
def Shared.broadcast (s : Shared) (pkt : Packet) (t : BroadcastTarget) :
    Shared × Option Error :=
  match broadcastPass pkt t s.map with
  | (m1, errs, log) =>
      match applySendErrors m1 errs with
      | (m2, e) => ({ s with map := m2, sent_log := s.sent_log ++ log }, e)

/-- `Shared::broadcast_message`: for each connected player, push a
`ChatFromHost::private_to_self(slot_player_id, message)` packet,
ignoring send errors (sinks are not cleared here). -/
def broadcastMessagePass (message : String) :
    List (Int × PlayerDispatchInfo) →
      List (Int × PlayerDispatchInfo) × List (Int × Packet)
  | [] => ([], [])
  | (pid, info) :: rest =>
      match broadcastMessagePass message rest with
      | (restMap, restLog) =>
          if info.connected then
            match info.send ⟨.chatFromHost, .chatPrivateToSelf info.slot_player_id message⟩ with
            | (info2, none) =>
                ((pid, info2) :: restMap,
                  (pid, (⟨.chatFromHost, .chatPrivateToSelf info.slot_player_id message⟩ : Packet))
                    :: restLog)
            | (info2, some _) => ((pid, info2) :: restMap, restLog)
          else ((pid, info) :: restMap, restLog)

/-- `Shared::broadcast_message` (send errors ignored, nothing removed). -/
def Shared.broadcast_message (s : Shared) (message : String) : Shared :=
  match broadcastMessagePass message s.map with
  | (m2, log) => { s with map := m2, sent_log := s.sent_log ++ log }

/-- One action tick produced by `ActionTickStream`. -/
structure Tick where
  time_increment_ms : Nat
  actions : List PlayerAction
deriving DecidableEq, Repr

/-- `Shared::dispatch_action_tick`: wrap the tick in an
`IncomingAction` packet and broadcast it to everyone. -/
def Shared.dispatch_action_tick (s : Shared) (tick : Tick) : Shared × Option Error :=
  s.broadcast ⟨.incomingAction, .incomingAction tick.time_increment_ms tick.actions⟩ .everyone

/-- The bounded action channel from the state task to the tick task.
`Dispatcher::new` creates it with capacity 10. -/
structure ActionChan where
  closed : Bool
  capacity : Nat
  queue : List PlayerAction
deriving DecidableEq, Repr

/-- The awaiting `Sender::send(..).await` used for the action channel:
it waits for capacity, so it succeeds whenever the channel is open
(regardless of how full it currently is) and fails only when the
receiver is gone. -/
def ActionChan.sendAwait (ch : ActionChan) (a : PlayerAction) : Option ActionChan :=
  if ch.closed then none else some { ch with queue := ch.queue ++ [a] }

/-- `chat_banned_player_ids` as computed by `State::new`: the player ids
of all slots whose ban list contains `Chat`. -/
def chat_banned_of (slots : List PlayerSlot) : List Int :=
  slots.filterMap (fun v =>
    if v.player.ban_list.contains PlayerBanType.chat then some v.player.player_id
    else none)

/-- The state task's `State` (`dispatch.rs` lines 189-197). -/
structure State where
  game_id : Int
  sent_tick : Nat
  shared : Shared
  player_ack_map : List (Int × Nat)
  game_player_id_lookup : List (Nat × Int)
  chat_banned_player_ids : List Int
deriving DecidableEq, Repr

/-- `State::new`: `sent_tick` starts at 0, every ack counter starts at
0, and the slot-to-player lookup maps `(slot.id + 1) as u8` to the
player id. -/
def State.new (game_id : Int) (slots : List PlayerSlot) : State :=
  { game_id
    sent_tick := 0
    shared := Shared.new game_id slots
    player_ack_map := slots.map (fun slot => (slot.player.player_id, 0))
    game_player_id_lookup :=
      slots.map (fun slot => ((slot.id + 1) % 256, slot.player.player_id))
    chat_banned_player_ids := chat_banned_of slots }

/-- Increment one ack counter, if present (`player_ack_map.get_mut(..).map(|t| *t += 1)`). -/
def bumpAck : List (Int × Nat) → Int → List (Int × Nat)
  | [], _ => []
  | (pid, n) :: rest, key =>
      if pid = key then (pid, n + 1) :: rest else (pid, n) :: bumpAck rest key

/-- `State::ack_tick`. -/
def State.ack_tick (st : State) (player_id : Int) : State :=
  { st with player_ack_map := bumpAck st.player_ack_map player_id }

/-- `State::dispatch_chat` (`dispatch.rs` lines 390-421).  Returns the
updated state and the result; the packet's payload must decode as
`ChatToHost`. -/
def State.dispatch_chat (st : State) (player_id : Int) (packet : Packet) :
    State × Except Error Unit :=
  match packet.payload with
  | .chat c =>
      if st.chat_banned_player_ids.contains player_id ∧ c.is_in_game_chat = true then
        (st, .ok ())
      else
        match st.shared.broadcast { packet with type_id := .chatFromHost }
            (.allowList (c.to_players.filterMap (fun sid =>
              match lookupKey st.game_player_id_lookup sid with
              | some pid => if pid ≠ player_id then some pid else none
              | none => none))) with
        | (sh, none) => ({ st with shared := sh }, .ok ())
        | (sh, some e) => ({ st with shared := sh }, .error e)
  | _ => (st, .error .decodeError)

deriving instance DecidableEq for Except

/-- Outcome of one `State::dispatch` call: the state after the call,
the action channel after the call, the game events delivered to the
event sink, and the returned result. -/
structure DispatchOut where
  st : State
  ch : ActionChan
  events : List GameEvent
  res : Except Error DispatchResult
deriving DecidableEq, Repr

/-- `State::dispatch_incoming_w3gs` (`dispatch.rs` lines 312-364).
`out_open` tells whether the `GameEventSender`'s receiver is still
alive; a send on a closed sender is the `Cancelled` error. -/
def State.dispatch_incoming_w3gs (st : State) (player_id : Int)
    (slot_player_id : Nat) (packet : Packet) (ch : ActionChan) (out_open : Bool) :
    DispatchOut :=
  match packet.type_id with
  | .leaveReq =>
      match packet.payload with
      | .leaveReq reason =>
          match lookupKey st.shared.map player_id with
          | none => ⟨st, ch, [], .error .playerNotFoundInGame⟩
          | some player =>
              match player.send ⟨.leaveAck, .leaveAck⟩ with
              | (player1, ackErr) =>
                  let sh1 : Shared :=
                    { st.shared with
                      map := updateKey st.shared.map player_id player1.disconnect
                      sent_log := st.shared.sent_log ++
                        (match ackErr with
                          | none => [(player_id, (⟨.leaveAck, .leaveAck⟩ : Packet))]
                          | some _ => []) }
                  match sh1.broadcast ⟨.playerLeft, .playerLeft slot_player_id reason⟩
                      (.denyList [player_id]) with
                  | (sh2, some e) => ⟨{ st with shared := sh2 }, ch, [], .error e⟩
                  | (sh2, none) =>
                      if out_open then
                        ⟨{ st with shared := sh2 }, ch,
                          [.playerStatusChange player_id .left .node], .ok .continue⟩
                      else
                        ⟨{ st with shared := sh2 }, ch, [], .error .cancelled⟩
      | _ => ⟨st, ch, [], .error .decodeError⟩
  | .chatToHost =>
      match st.dispatch_chat player_id packet with
      | (st2, .ok _) => ⟨st2, ch, [], .ok .continue⟩
      | (st2, .error e) => ⟨st2, ch, [], .error e⟩
  | .outgoingKeepAlive => ⟨st.ack_tick player_id, ch, [], .ok .continue⟩
  | _ => ⟨st, ch, [], .ok .continue⟩

/-- The node frames the state task receives: either a wrapped W3GS
packet, or the node control frame carrying
`PacketClientUpdateSlotClientStatusRequest`. -/
inductive Frame where
  | w3gs (pkt : Packet)
  | clientUpdateSlotClientStatus (status : SlotClientStatus)
deriving DecidableEq, Repr

/-- The state task's inbound messages. -/
inductive Message where
  | incoming (player_id : Int) (slot_player_id : Nat) (frame : Frame)
  | playerConnect (player_id : Int) (slot_player_id : Nat) (tx : Sink)
  | playerDisconnect (player_id : Int) (slot_player_id : Nat)
deriving DecidableEq, Repr

/-- `State::dispatch` (`dispatch.rs` lines 233-310). -/
def State.dispatch (st : State) (msg : Message) (ch : ActionChan) (out_open : Bool) :
    DispatchOut :=
  match msg with
  | .incoming player_id slot_player_id frame =>
      match frame with
      | .w3gs pkt =>
          if pkt.type_id = PacketTypeId.outgoingAction then
            match pkt.payload with
            | .outgoingAction data =>
                match ch.sendAwait ⟨slot_player_id, data⟩ with
                | some ch2 => ⟨st, ch2, [], .ok .continue⟩
                | none => ⟨st, ch, [], .error .cancelled⟩
            | _ => ⟨st, ch, [], .error .decodeError⟩
          else st.dispatch_incoming_w3gs player_id slot_player_id pkt ch out_open
      | .clientUpdateSlotClientStatus status =>
          if out_open then
            ⟨st, ch, [.playerStatusChange player_id status .client], .ok .continue⟩
          else ⟨st, ch, [], .error .cancelled⟩
  | .playerConnect player_id _ tx =>
      match lookupKey st.shared.map player_id with
      | none => ⟨st, ch, [], .error .playerNotFoundInGame⟩
      | some player =>
          let st2 : State :=
            { st with shared :=
              { st.shared with map := updateKey st.shared.map player_id { player with tx := some tx } } }
          if out_open then
            ⟨st2, ch, [.playerStatusChange player_id .connected .node], .ok .continue⟩
          else ⟨st2, ch, [], .error .cancelled⟩
  | .playerDisconnect player_id slot_player_id =>
      if out_open then
        match lookupKey st.shared.map player_id with
        | none =>
            ⟨st, ch, [.playerStatusChange player_id .disconnected .node],
              .error .playerNotFoundInGame⟩
        | some player =>
            match player.tx with
            | some _ =>
                let sh1 : Shared :=
                  { st.shared with map := updateKey st.shared.map player_id player.disconnect }
                match sh1.broadcast
                    ⟨.playerLeft, .playerLeft slot_player_id LeaveReason.leaveDisconnect⟩
                    .everyone with
                | (sh2, none) =>
                    ⟨{ st with shared := sh2 }, ch,
                      [.playerStatusChange player_id .disconnected .node], .ok .continue⟩
                | (sh2, some e) =>
                    ⟨{ st with shared := sh2 }, ch,
                      [.playerStatusChange player_id .disconnected .node], .error e⟩
            | none =>
                ⟨st, ch, [.playerStatusChange player_id .disconnected .node], .ok .continue⟩
      else ⟨st, ch, [], .error .cancelled⟩

/-- The state task's loop (`Dispatcher::serve`): dispatch each message
in turn; per-message errors are logged and the loop continues. -/
def serve_run (st : State) (ch : ActionChan) (out_open : Bool) :
    List Message → State × ActionChan
  | [] => (st, ch)
  | msg :: rest =>
      match st.dispatch msg ch out_open with
      | o => serve_run o.st o.ch out_open rest

/-- The literal start message pushed by `Dispatcher::new` when at least
one player is chat-banned. -/
def muteMessage : String := "One or more players in this game have been muted."

/-- `start_messages` as computed by `Dispatcher::new` (lines 70-73). -/
def start_messages_of (slots : List PlayerSlot) : List String :=
  if chat_banned_of slots = [] then [] else [muteMessage]

/-- What the tick task does the moment the start signal fires, before
entering its loop (`Dispatcher::tick` lines 148-156): broadcast each
start message. -/
def tick_start_broadcast (slots : List PlayerSlot) (s : Shared) : Shared :=
  (start_messages_of slots).foldl Shared.broadcast_message s

/-- The `Dispatcher` handle, restricted to the fields `start` touches:
the one-shot start sender, present until consumed. -/
structure Dispatcher where
  game_id : Int
  start_tx : Option Unit
deriving DecidableEq, Repr

/-- The `Dispatcher` as returned by `Dispatcher::new`: the start sender
is armed. -/
def Dispatcher.mkNew (game_id : Int) : Dispatcher :=
  { game_id, start_tx := some () }

/-- `Dispatcher::start`: take the one-shot sender if still present and
fire it.  The boolean records whether the start signal was sent (the
tick task released). -/
def Dispatcher.start (d : Dispatcher) : Dispatcher × Bool :=
  match d.start_tx with
  | some _ => ({ d with start_tx := none }, true)
  | none => (d, false)

/-- Pointwise effect of one `Shared::broadcast` call on one player map
entry: the first-pass try-send combined with the second pass's clearing
of sinks that failed with `Closed` or `ChannelFull`.  The boolean
records whether the frame was delivered to this player. -/
def broadcastStep (pkt : Packet) (t : BroadcastTarget) (pid : Int)
    (info : PlayerDispatchInfo) : PlayerDispatchInfo × Bool :=
  if t.containsId pid then
    match info.tx with
    | some sink =>
        if sink.closed then ({ info with tx := none }, false)
        else if sink.queue.length < sink.capacity then
          ({ info with tx := some { sink with queue := sink.queue ++ [pkt] } }, true)
        else ({ info with tx := none }, false)
    | none => (info, false)
  else (info, false)

end NodeHost

namespace LanProxy

/-- Error type of the flo binary, restricted to the variants
`handle_load_screen` can produce. -/
inductive Error where
  | streamClosed
  | taskCancelled
  | unexpectedNodeGameStatus (status : NodeGameStatus)
  | slotNotResolved
deriving DecidableEq, Repr

/-- One entry of `info.slot_info.player_infos`: a player's persistent id
and 1-based slot player id. -/
structure PlayerInfo where
  player_id : Int
  slot_player_id : Nat
  name : String
deriving DecidableEq, Repr

/-- The parts of `LanGameInfo` read by `handle_load_screen`:
`info.game.player_id` (the local player), `info.slot_info.slot_player_id`
(the local 1-based slot id) and `info.slot_info.player_infos`. -/
structure LanGameInfo where
  my_player_id : Int
  my_slot_player_id : Nat
  player_infos : List PlayerInfo
deriving DecidableEq, Repr

/-- `get_player_loaded_packet` (`proxy.rs` lines 423-443): resolve the
player's slot and build a `PlayerLoaded` packet carrying its 1-based
slot player id. -/
def get_player_loaded_packet (info : LanGameInfo) (player_id : Int) :
    Except Error Packet :=
  match info.player_infos.find? (fun s => s.player_id = player_id) with
  | some s => .ok ⟨.playerLoaded, .playerLoaded s.slot_player_id⟩
  | none => .error .slotNotResolved

/-- One packet written to the local client during the Load phase.
`for_player` is the remote player id the packet was generated for via
`get_player_loaded_packet`, or `none` for the local `PlayerLoaded`
mirror and for `LeaveAck`. -/
structure LoadEmission where
  for_player : Option Int
  pkt : Packet
deriving DecidableEq, Repr

/-- Result of the load-screen handler on a given input sequence. -/
inductive LoadResult where
  | finished
  | pending
  | failed (e : Error)
deriving DecidableEq, Repr

/-- The initial replay of `handle_load_screen` (`proxy.rs` lines
309-332): walk the collected status map; for each `Loaded` entry for a
remote player, record the id in `loaded_sent` and build its
`PlayerLoaded` packet.  A slot-resolution failure aborts the handler
before anything is sent (the packets are flushed only after the loop). -/
def collect_initial (info : LanGameInfo) :
    List (Int × SlotClientStatus) → Except Error (List Int × List LoadEmission)
  | [] => .ok ([], [])
  | (player_id, status) :: rest =>
      if status = SlotClientStatus.loaded then
        if player_id ≠ info.my_player_id then
          match get_player_loaded_packet info player_id with
          | .ok pkt =>
              match collect_initial info rest with
              | .ok (sent, ems) => .ok (player_id :: sent, ⟨some player_id, pkt⟩ :: ems)
              | .error e => .error e
          | .error e => .error e
        else collect_initial info rest
      else collect_initial info rest

/-- The three input sources of `handle_load_screen`'s `select!` loop, in
arrival order: a decoded client W3GS packet (or the client stream
closing), a pre-game `PlayerStatusChange` event (or the collector
channel closing), and a value from the node game status watch (or that
watch closing). -/
inductive LoadInput where
  | client (pkt : Packet)
  | clientClosed
  | pre (player_id : Int) (status : SlotClientStatus)
  | preClosed
  | nodeStatus (v : Option NodeGameStatus)
  | nodeStatusClosed
deriving DecidableEq, Repr

/-- The main loop of `handle_load_screen` (`proxy.rs` lines 334-417)
over an explicit arrival sequence, carrying the `loaded_sent` set.
Returns the packets written to the local client and the outcome. -/
def load_loop (info : LanGameInfo) (sent : List Int) :
    List LoadInput → List LoadEmission × LoadResult
  | [] => ([], .pending)
  | inp :: rest =>
      match inp with
      | .client pkt =>
          match pkt.type_id with
          | .gameLoadedSelf =>
              match load_loop info sent rest with
              | (ems, r) =>
                  (⟨none, (⟨.playerLoaded, .playerLoaded info.my_slot_player_id⟩ : Packet)⟩
                    :: ems, r)
          | .leaveReq => ([⟨none, (⟨.leaveAck, .leaveAck⟩ : Packet)⟩], .finished)
          | _ => load_loop info sent rest
      | .clientClosed => ([], .failed .streamClosed)
      | .pre player_id status =>
          match status with
          | .loaded =>
              if player_id ≠ info.my_player_id ∧ ¬ player_id ∈ sent then
                match get_player_loaded_packet info player_id with
                | .ok pkt =>
                    match load_loop info (player_id :: sent) rest with
                    | (ems, r) => (⟨some player_id, pkt⟩ :: ems, r)
                | .error e => ([], .failed e)
              else load_loop info sent rest
          | _ => load_loop info sent rest
      | .preClosed => ([], .finished)
      | .nodeStatus v =>
          match v with
          | none => load_loop info sent rest
          | some .loading => load_loop info sent rest
          | some .running => ([], .finished)
          | some s => ([], .failed (.unexpectedNodeGameStatus s))
      | .nodeStatusClosed => ([], .failed .taskCancelled)

/-- `handle_load_screen` over one whole Load phase: the initial replay
of the collected status map followed by the main loop. -/
def handle_load_screen (info : LanGameInfo)
    (initial_status_map : List (Int × SlotClientStatus)) (inputs : List LoadInput) :
    List LoadEmission × LoadResult :=
  match collect_initial info initial_status_map with
  | .error e => ([], .failed e)
  | .ok (sent, ems0) =>
      match load_loop info sent inputs with
      | (ems1, r) => (ems0 ++ ems1, r)

/-- How many of the emitted packets were generated for remote player
`pid`. -/
def countFor (pid : Int) (ems : List LoadEmission) : Nat :=
  ems.countP (fun e => e.for_player = some pid)

end LanProxy

theorem lookupKey_updateKey_ne {α β : Type} [DecidableEq α] (m : List (α × β))
    (k q : α) (v : β) (h : k ≠ q) : lookupKey (updateKey m k v) q = lookupKey m q := by
  induction m with
  | nil => rfl
  | cons e rest ih =>
      obtain ⟨k1, v1⟩ := e
      by_cases hk : k1 = k
      · subst hk
        have hq : ¬ k1 = q := h
        simp [updateKey, lookupKey, hq]
      · by_cases hq : k1 = q <;> simp [updateKey, lookupKey, hk, hq, Ne.symm h, ih]

theorem lookupKey_updateKey_self {α β : Type} [DecidableEq α] (m : List (α × β))
    (k : α) (v v0 : β) (h : lookupKey m k = some v0) :
    lookupKey (updateKey m k v) k = some v := by
  induction m with
  | nil => simp [lookupKey] at h
  | cons e rest ih =>
      obtain ⟨k1, v1⟩ := e
      by_cases hk : k1 = k
      · simp [updateKey, lookupKey, hk]
      · simp [updateKey, lookupKey, hk] at h ⊢
        exact ih h

theorem updateKey_keys {α β : Type} [DecidableEq α] (m : List (α × β)) (k : α) (v : β) :
    (updateKey m k v).map Prod.fst = m.map Prod.fst := by
  induction m with
  | nil => rfl
  | cons e rest ih =>
      obtain ⟨k1, v1⟩ := e
      by_cases hk : k1 = k
      · simp [updateKey, hk]
      · simp [updateKey, hk, ih]

theorem mem_of_lookupKey {α β : Type} [DecidableEq α] (m : List (α × β)) (k : α) (v : β)
    (h : lookupKey m k = some v) : (k, v) ∈ m := by
  induction m with
  | nil => simp [lookupKey] at h
  | cons e rest ih =>
      obtain ⟨k1, v1⟩ := e
      by_cases hk : k1 = k
      · subst hk
        simp [lookupKey] at h
        simp [h]
      · simp [lookupKey, hk] at h
        exact List.mem_cons_of_mem _ (ih h)

theorem lookupKey_of_mem_nodup {α β : Type} [DecidableEq α] (m : List (α × β)) (k : α) (v : β)
    (hnd : (m.map Prod.fst).Nodup) (h : (k, v) ∈ m) : lookupKey m k = some v := by
  induction m with
  | nil => simp at h
  | cons e rest ih =>
      obtain ⟨k1, v1⟩ := e
      simp only [List.map_cons, List.nodup_cons] at hnd
      rcases List.mem_cons.mp h with h1 | h1
      · cases h1
        simp [lookupKey]
      · have hk : k1 ≠ k := by
          intro hkk
          subst hkk
          exact hnd.1 (List.mem_map.mpr ⟨(k1, v), h1, rfl⟩)
        simp [lookupKey, hk]
        exact ih hnd.2 h1

theorem lookupKey_map_fun {α β : Type} [DecidableEq α] (m : List (α × β))
    (f : α → β → β) (k : α) :
    lookupKey (m.map (fun e => (e.1, f e.1 e.2))) k = (lookupKey m k).map (f k) := by
  induction m with
  | nil => rfl
  | cons e rest ih =>
      obtain ⟨k1, v1⟩ := e
      by_cases hk : k1 = k
      · subst hk
        simp [lookupKey]
      · simp [lookupKey, hk, ih]

namespace NodeHost

theorem broadcastPass_keys (pkt : Packet) (t : BroadcastTarget)
    (m : List (Int × PlayerDispatchInfo)) :
    ((broadcastPass pkt t m).1).map Prod.fst = m.map Prod.fst := by
  induction m with
  | nil => simp [broadcastPass]
  | cons e rest ih =>
      obtain ⟨pid, info⟩ := e
      rcases hbp : broadcastPass pkt t rest with ⟨m1, errs1, log1⟩
      rw [hbp] at ih
      simp only [broadcastPass, hbp]
      by_cases ht : t.containsId pid <;>
        by_cases hc : info.connected <;>
          rcases hs : info.send pkt with ⟨info2, err⟩ <;>
            cases err <;> simp [ht, hc, hs, ih]

theorem broadcastPass_errs_mem (pkt : Packet) (t : BroadcastTarget)
    (m : List (Int × PlayerDispatchInfo)) :
    ∀ p ∈ (broadcastPass pkt t m).2.1, p.1 ∈ m.map Prod.fst := by
  induction m with
  | nil => simp [broadcastPass]
  | cons e rest ih =>
      obtain ⟨pid, info⟩ := e
      rcases hbp : broadcastPass pkt t rest with ⟨m1, errs1, log1⟩
      rw [hbp] at ih
      intro p hp
      simp only [broadcastPass, hbp] at hp
      simp only [List.map_cons, List.mem_cons]
      by_cases ht : t.containsId pid
      · by_cases hc : info.connected
        · rcases hs : info.send pkt with ⟨info2, err⟩
          cases err with
          | none =>
              simp [ht, hc, hs] at hp
              exact Or.inr (ih p hp)
          | some e =>
              simp [ht, hc, hs] at hp
              rcases hp with rfl | hp
              · exact Or.inl rfl
              · exact Or.inr (ih p hp)
        · simp [ht, hc] at hp
          exact Or.inr (ih p hp)
      · simp [ht] at hp
        exact Or.inr (ih p hp)

theorem broadcastPass_log (pkt : Packet) (t : BroadcastTarget)
    (m : List (Int × PlayerDispatchInfo)) :
    (broadcastPass pkt t m).2.2 = m.filterMap (fun e =>
      if (broadcastStep pkt t e.1 e.2).2 then some (e.1, pkt) else none) := by
  induction m with
  | nil => simp [broadcastPass]
  | cons e rest ih =>
      obtain ⟨pid, info⟩ := e
      rcases hbp : broadcastPass pkt t rest with ⟨m1, errs1, log1⟩
      rw [hbp] at ih
      simp only at ih
      rw [List.filterMap_cons]
      by_cases ht : t.containsId pid
      · rcases htx : info.tx with _ | sink
        · have hc : info.connected = false := by simp [PlayerDispatchInfo.connected, htx]
          have hstep : (broadcastStep pkt t pid info).2 = false := by
            simp [broadcastStep, ht, htx]
          simp [broadcastPass, hbp, ht, hc, hstep, ih]
        · have hc : info.connected = true := by simp [PlayerDispatchInfo.connected, htx]
          by_cases hcl : sink.closed
          · have hstep : (broadcastStep pkt t pid info).2 = false := by
              simp [broadcastStep, ht, htx, hcl]
            simp [broadcastPass, hbp, ht, hc, hstep, PlayerDispatchInfo.send, Sink.trySend,
              htx, hcl, ih]
          · by_cases hcap : sink.queue.length < sink.capacity
            · have hstep : (broadcastStep pkt t pid info).2 = true := by
                simp [broadcastStep, ht, htx, hcl, hcap]
              simp [broadcastPass, hbp, ht, hc, hstep, PlayerDispatchInfo.send, Sink.trySend,
                htx, hcl, hcap, ih]
            · have hstep : (broadcastStep pkt t pid info).2 = false := by
                simp [broadcastStep, ht, htx, hcl, hcap]
              simp [broadcastPass, hbp, ht, hc, hstep, PlayerDispatchInfo.send, Sink.trySend,
                htx, hcl, hcap, ih]
      · have hstep : (broadcastStep pkt t pid info).2 = false := by
          simp [broadcastStep, ht]
        simp [broadcastPass, hbp, ht, hstep, ih]

theorem applySendErrors_cons_notmem (pid : Int)
    (m : List (Int × PlayerDispatchInfo)) (errs : List (Int × PlayerSendError))
    (h : pid ∉ errs.map Prod.fst) (i : PlayerDispatchInfo) :
    applySendErrors ((pid, i) :: m) errs =
      ((pid, i) :: (applySendErrors m errs).1, (applySendErrors m errs).2) := by
  induction errs generalizing m with
  | nil => simp [applySendErrors]
  | cons e rest ih =>
      obtain ⟨q, err⟩ := e
      simp only [List.map_cons, List.mem_cons] at h
      push_neg at h
      have hpq : ¬ pid = q := h.1
      cases err with
      | notConnected => simp only [applySendErrors]; exact ih m h.2
      | closedSink =>
          rcases hl : lookupKey m q with _ | info
          · simp [applySendErrors, lookupKey, hpq, hl]
          · simp only [applySendErrors, lookupKey, hpq, if_false, hl, updateKey]
            exact ih (updateKey m q info.disconnect) h.2
      | channelFull =>
          rcases hl : lookupKey m q with _ | info
          · simp [applySendErrors, lookupKey, hpq, hl]
          · simp only [applySendErrors, lookupKey, hpq, if_false, hl, updateKey]
            exact ih (updateKey m q info.disconnect) h.2

theorem applySendErrors_broadcastPass (pkt : Packet) (t : BroadcastTarget)
    (m : List (Int × PlayerDispatchInfo)) (hnd : (m.map Prod.fst).Nodup) :
    applySendErrors (broadcastPass pkt t m).1 (broadcastPass pkt t m).2.1 =
      (m.map (fun e => (e.1, (broadcastStep pkt t e.1 e.2).1)), none) := by
  induction m with
  | nil => simp [broadcastPass, applySendErrors]
  | cons e rest ih =>
      obtain ⟨pid, info⟩ := e
      simp only [List.map_cons, List.nodup_cons] at hnd
      have hpid : pid ∉ ((broadcastPass pkt t rest).2.1).map Prod.fst := by
        intro hmem
        rcases List.mem_map.mp hmem with ⟨p, hp, hfst⟩
        exact hnd.1 (hfst ▸ broadcastPass_errs_mem pkt t rest p hp)
      have ih2 := ih hnd.2
      rcases hbp : broadcastPass pkt t rest with ⟨m1, errs1, log1⟩
      rw [hbp] at ih2 hpid
      simp only at ih2 hpid
      have hcons := applySendErrors_cons_notmem pid m1 errs1 hpid
      by_cases ht : t.containsId pid
      · rcases htx : info.tx with _ | sink
        · have hc : info.connected = false := by simp [PlayerDispatchInfo.connected, htx]
          simp [broadcastPass, hbp, ht, hc, hcons, ih2, broadcastStep, htx]
        · have hc : info.connected = true := by simp [PlayerDispatchInfo.connected, htx]
          have hsend := rfl (a := info.send pkt)
          by_cases hcl : sink.closed
          · have hsend2 : info.send pkt =
                ({ info with tx := some sink }, some PlayerSendError.closedSink) := by
              simp [PlayerDispatchInfo.send, Sink.trySend, htx, hcl]
            simp [broadcastPass, hbp, ht, hc, hsend2, applySendErrors, lookupKey, updateKey,
              PlayerDispatchInfo.disconnect, hcons, ih2, broadcastStep, htx, hcl]
          · by_cases hcap : sink.queue.length < sink.capacity
            · have hsend2 : info.send pkt =
                  ({ info with tx := some { sink with queue := sink.queue ++ [pkt] } }, none) := by
                simp [PlayerDispatchInfo.send, Sink.trySend, htx, hcl, hcap]
              simp [broadcastPass, hbp, ht, hc, hsend2, hcons, ih2, broadcastStep, htx,
                hcl, hcap]
            · have hsend2 : info.send pkt =
                  ({ info with tx := some sink }, some PlayerSendError.channelFull) := by
                simp [PlayerDispatchInfo.send, Sink.trySend, htx, hcl, hcap]
              simp [broadcastPass, hbp, ht, hc, hsend2, applySendErrors, lookupKey, updateKey,
                PlayerDispatchInfo.disconnect, hcons, ih2, broadcastStep, htx, hcl, hcap]
      · simp [broadcastPass, hbp, ht, hcons, ih2, broadcastStep]

/-- Characterization of `Shared::broadcast` on a player map with unique
keys (as guaranteed by `BTreeMap`): each entry is transformed pointwise
by `broadcastStep`, the delivered frames are appended to the log in map
order, and no error is ever returned to the caller. -/
theorem Shared.broadcast_eq (s : Shared) (pkt : Packet) (t : BroadcastTarget)
    (hnd : (s.map.map Prod.fst).Nodup) :
    s.broadcast pkt t =
      ({ s with
          map := s.map.map (fun e => (e.1, (broadcastStep pkt t e.1 e.2).1))
          sent_log := s.sent_log ++ s.map.filterMap (fun e =>
            if (broadcastStep pkt t e.1 e.2).2 then some (e.1, pkt) else none) }, none) := by
  have h1 := applySendErrors_broadcastPass pkt t s.map hnd
  have h2 := broadcastPass_log pkt t s.map
  rcases hbp : broadcastPass pkt t s.map with ⟨m1, errs1, log1⟩
  rw [hbp] at h1 h2
  simp only at h1 h2
  simp [Shared.broadcast, hbp, h1, h2]

theorem Shared.broadcast_log_append (s : Shared) (pkt : Packet) (t : BroadcastTarget) :
    ∃ d, ((s.broadcast pkt t).1).sent_log = s.sent_log ++ d := by
  rcases hbp : broadcastPass pkt t s.map with ⟨m1, errs1, log1⟩
  rcases hap : applySendErrors m1 errs1 with ⟨m2, err⟩
  exact ⟨log1, by simp [Shared.broadcast, hbp, hap]⟩

end NodeHost

namespace NodeHost

/-- C9: `Dispatcher::start()` is idempotent after the first call.  On a
fresh dispatcher (as returned by `Dispatcher::new`) the first invocation
fires the one-shot start signal, releasing the tick task; any further
invocation finds the sender already taken, changes no observable state
and releases nothing further. -/
theorem Dispatcher.start_idempotent (game_id : Int) (d : Dispatcher) :
    ((Dispatcher.mkNew game_id).start).2 = true ∧
    ((d.start).1).start = ((d.start).1, false) := by
  constructor
  · rfl
  · rcases h : d.start_tx with _ | u <;> simp [Dispatcher.start, h]

/-- C10: a `PlayerConnect` message whose player id is not a key of the
dispatcher's player map makes `State::dispatch` return
`PlayerNotFoundInGame` with the state completely unchanged: no sink is
stored for any player and no `PlayerStatusChange(Connected)` event is
emitted, because the sink replacement happens behind the lookup, which
precedes the event send. -/
theorem State.player_connect_unknown (st : State) (ch : ActionChan) (b : Bool)
    (pid : Int) (sid : Nat) (tx : Sink)
    (h : lookupKey st.shared.map pid = none) :
    st.dispatch (.playerConnect pid sid tx) ch b =
      ⟨st, ch, [], .error .playerNotFoundInGame⟩ := by
  simp [State.dispatch, h]

theorem State.player_connect_unknown_witness :
    (State.new 0 [⟨0, ⟨1, []⟩⟩]).dispatch
        (.playerConnect 2 3 ⟨false, 4, []⟩) ⟨false, 10, []⟩ true =
      ⟨State.new 0 [⟨0, ⟨1, []⟩⟩], ⟨false, 10, []⟩, [], .error .playerNotFoundInGame⟩ :=
  State.player_connect_unknown (State.new 0 [⟨0, ⟨1, []⟩⟩]) ⟨false, 10, []⟩ true
    2 3 ⟨false, 4, []⟩ (by decide)

/-- C6 (amended): an `Incoming` W3GS `OutgoingAction` frame from slot
player id `sid` enqueues `PlayerAction { player_id := sid, data }` to
the tick task.  The enqueue is the awaiting `send(..).await`, so only a
closed action channel is fatal (`Cancelled`); a full but open channel
waits for capacity and then succeeds. -/
theorem State.dispatch_outgoing_action_enqueue (st : State) (ch : ActionChan)
    (b : Bool) (pid : Int) (sid : Nat) (data : List Nat) :
    (ch.closed = false →
      st.dispatch (.incoming pid sid (.w3gs ⟨.outgoingAction, .outgoingAction data⟩)) ch b =
        ⟨st, { ch with queue := ch.queue ++ [⟨sid, data⟩] }, [], .ok .continue⟩) ∧
    (ch.closed = true →
      st.dispatch (.incoming pid sid (.w3gs ⟨.outgoingAction, .outgoingAction data⟩)) ch b =
        ⟨st, ch, [], .error .cancelled⟩) := by
  constructor <;> intro h <;> simp [State.dispatch, ActionChan.sendAwait, h]

theorem State.dispatch_outgoing_action_enqueue_witness :
    (State.new 1 [⟨0, ⟨1, []⟩⟩]).dispatch
        (.incoming 1 1 (.w3gs ⟨.outgoingAction, .outgoingAction [2]⟩)) ⟨false, 10, []⟩ true =
      ⟨State.new 1 [⟨0, ⟨1, []⟩⟩], ⟨false, 10, [⟨1, [2]⟩]⟩, [], .ok .continue⟩ := by
  have h := (State.dispatch_outgoing_action_enqueue (State.new 1 [⟨0, ⟨1, []⟩⟩])
    ⟨false, 10, []⟩ true 1 1 [2]).1 rfl
  simpa using h

/-- Counterexample to C6 as stated: a full (at capacity) but open
action channel is not fatal — the enqueue succeeds and `dispatch`
returns `Ok`, not `Cancelled`. -/
theorem State.dispatch_outgoing_action_full_channel_not_fatal :
    let ch : ActionChan := ⟨false, 1, [⟨1, [1]⟩]⟩
    let o := (State.new 1 [⟨0, ⟨1, []⟩⟩]).dispatch
      (.incoming 1 1 (.w3gs ⟨.outgoingAction, .outgoingAction [2]⟩)) ch true
    ch.capacity ≤ ch.queue.length ∧ ch.closed = false ∧
      o.res = .ok .continue ∧ ¬ o.res = .error .cancelled ∧
      o.ch.queue = [⟨1, [1]⟩, ⟨1, [2]⟩] := by
  decide

end NodeHost

namespace LanProxy

/-- C8: during the Load phase, a value yielded by the node status watch
is handled as follows: `Loading` is ignored and the phase continues
unchanged, `Running` makes the handler return success (ending the
phase), and any other status makes it fail with
`UnexpectedNodeGameStatus` carrying that status. -/
theorem load_screen_node_status_transitions (info : LanGameInfo) (sent : List Int)
    (rest : List LoadInput) (s : NodeGameStatus) :
    (load_loop info sent (.nodeStatus (some .loading) :: rest) = load_loop info sent rest) ∧
    (load_loop info sent (.nodeStatus (some .running) :: rest) = ([], .finished)) ∧
    (s ≠ NodeGameStatus.loading → s ≠ NodeGameStatus.running →
      load_loop info sent (.nodeStatus (some s) :: rest) =
        ([], .failed (.unexpectedNodeGameStatus s))) := by
  refine ⟨rfl, rfl, ?_⟩
  intro h1 h2
  cases s
  case loading => exact absurd rfl h1
  case running => exact absurd rfl h2
  all_goals rfl

theorem load_screen_node_status_transitions_witness :
    load_loop ⟨1, 1, []⟩ [] [.nodeStatus (some NodeGameStatus.ended)] =
      ([], .failed (.unexpectedNodeGameStatus NodeGameStatus.ended)) :=
  (load_screen_node_status_transitions ⟨1, 1, []⟩ [] [] NodeGameStatus.ended).2.2
    (by decide) (by decide)

end LanProxy

namespace NodeHost

theorem dispatch_chat_fields (st : State) (pid : Int) (pkt : Packet) :
    (st.dispatch_chat pid pkt).1.sent_tick = st.sent_tick ∧
    (st.dispatch_chat pid pkt).1.player_ack_map = st.player_ack_map ∧
    (st.dispatch_chat pid pkt).1.game_player_id_lookup = st.game_player_id_lookup ∧
    (st.dispatch_chat pid pkt).1.chat_banned_player_ids = st.chat_banned_player_ids := by
  unfold State.dispatch_chat
  (repeat' split) <;> simp

theorem dispatch_ack_shape (st : State) (msg : Message) (ch : ActionChan) (b : Bool) :
    (st.dispatch msg ch b).st.sent_tick = st.sent_tick ∧
    (st.dispatch msg ch b).st.player_ack_map =
      (match msg with
        | .incoming pid _ (.w3gs pkt) =>
            if pkt.type_id = PacketTypeId.outgoingKeepAlive then bumpAck st.player_ack_map pid
            else st.player_ack_map
        | _ => st.player_ack_map) := by
  cases msg with
  | incoming pid sid frame =>
      cases frame with
      | w3gs pkt =>
          by_cases hoa : pkt.type_id = PacketTypeId.outgoingAction
          · simp only [State.dispatch, hoa, if_true]
            constructor <;> (repeat' split) <;> simp_all
          · by_cases hct : pkt.type_id = PacketTypeId.chatToHost
            · have hcf := dispatch_chat_fields st pid pkt
              simp only [State.dispatch, State.dispatch_incoming_w3gs, hoa, hct, if_false]
              rcases hdc : st.dispatch_chat pid pkt with ⟨st2, r⟩
              rw [hdc] at hcf
              cases r <;> simp_all
            · cases htid : pkt.type_id <;>
                simp only [State.dispatch, State.dispatch_incoming_w3gs,
                  State.ack_tick, hoa, htid, if_false] <;>
                first
                  | (exact absurd htid hoa)
                  | (exact absurd htid hct)
                  | (constructor <;> (repeat' split) <;> simp_all)
      | clientUpdateSlotClientStatus status =>
          by_cases hb : b <;> simp [State.dispatch, hb]
  | playerConnect pid sid tx =>
      constructor <;> simp only [State.dispatch] <;> (repeat' split) <;> simp_all
  | playerDisconnect pid sid =>
      constructor <;> simp only [State.dispatch] <;> (repeat' split) <;> simp_all

theorem lookupKey_bumpAck (m : List (Int × Nat)) (pid q : Int) :
    lookupKey (bumpAck m pid) q =
      if q = pid then (lookupKey m q).map (fun n => n + 1) else lookupKey m q := by
  induction m with
  | nil => simp [bumpAck, lookupKey]
  | cons e rest ih =>
      obtain ⟨k, n⟩ := e
      by_cases hk : k = pid
      · subst hk
        by_cases hq : q = k
        · subst hq
          simp [bumpAck, lookupKey]
        · have hkq : ¬ k = q := fun hh => hq hh.symm
          simp [bumpAck, lookupKey, hq, hkq]
      · by_cases hq : k = q
        · subst hq
          have hqp : ¬ k = pid := hk
          simp [bumpAck, lookupKey, hqp]
        · simp [bumpAck, lookupKey, hk, hq, ih]

end NodeHost

namespace NodeHost

theorem serve_run_ack_mono (msgs : List Message) :
    ∀ (st : State) (ch : ActionChan) (b : Bool) (pid : Int) (n : Nat),
      lookupKey st.player_ack_map pid = some n →
      ∃ m, lookupKey ((serve_run st ch b msgs).1).player_ack_map pid = some m ∧ n ≤ m ∧
        ((serve_run st ch b msgs).1).sent_tick = st.sent_tick := by
  induction msgs with
  | nil => exact fun st ch b pid n h => ⟨n, h, le_refl n, rfl⟩
  | cons msg rest ih =>
      intro st ch b pid n h
      obtain ⟨hs, ha⟩ := dispatch_ack_shape st msg ch b
      have hstep : ∃ m1,
          lookupKey ((st.dispatch msg ch b).st).player_ack_map pid = some m1 ∧ n ≤ m1 := by
        rw [ha]
        cases msg with
        | incoming pid2 sid frame =>
            cases frame with
            | w3gs pkt =>
                by_cases hka : pkt.type_id = PacketTypeId.outgoingKeepAlive
                · by_cases hpid : pid = pid2
                  · refine ⟨n + 1, ?_, Nat.le_succ n⟩
                    subst hpid
                    simp [hka, lookupKey_bumpAck, h]
                  · refine ⟨n, ?_, le_refl n⟩
                    simp [hka, lookupKey_bumpAck, hpid, h]
                · refine ⟨n, ?_, le_refl n⟩
                  simp [hka, h]
            | clientUpdateSlotClientStatus s => exact ⟨n, h, le_refl n⟩
        | playerConnect p s tx => exact ⟨n, h, le_refl n⟩
        | playerDisconnect p s => exact ⟨n, h, le_refl n⟩
      obtain ⟨m1, hm1, hnm1⟩ := hstep
      obtain ⟨m, hm, hm1m, hsent⟩ :=
        ih (st.dispatch msg ch b).st (st.dispatch msg ch b).ch b pid m1 hm1
      refine ⟨m, ?_, le_trans hnm1 hm1m, ?_⟩
      · simpa [serve_run] using hm
      · have : ((serve_run st ch b (msg :: rest)).1).sent_tick =
            ((serve_run (st.dispatch msg ch b).st (st.dispatch msg ch b).ch b rest).1).sent_tick := by
          simp [serve_run]
        rw [this, hsent, hs]

/-- C1 (amended): the per-player ack counters are non-decreasing over
any run of the state task, each `OutgoingKeepAlive` from a player
present in the ack map increments that player's counter by exactly 1,
and nothing else changes the ack map — but `sent_tick` is never
modified by any dispatched message (it stays at its initial value 0),
so the claimed invariant `sent_tick ≥ per_player_ack[p]` does not hold
once a keep-alive has been processed. -/
theorem State.ack_monotone_keepalive_exact (st : State) (ch : ActionChan) (b : Bool)
    (pid : Int) (n : Nat) (h : lookupKey st.player_ack_map pid = some n) :
    (∀ msg : Message, (st.dispatch msg ch b).st.sent_tick = st.sent_tick) ∧
    (∀ (sid : Nat) (pkt : Packet), pkt.type_id = PacketTypeId.outgoingKeepAlive →
      (st.dispatch (.incoming pid sid (.w3gs pkt)) ch b).st.player_ack_map =
          bumpAck st.player_ack_map pid ∧
        lookupKey ((st.dispatch (.incoming pid sid (.w3gs pkt)) ch b).st).player_ack_map pid =
          some (n + 1)) ∧
    (∀ msg : Message,
      (∀ (pid2 : Int) (sid : Nat) (pkt : Packet),
          msg = Message.incoming pid2 sid (Frame.w3gs pkt) →
          pkt.type_id ≠ PacketTypeId.outgoingKeepAlive) →
      (st.dispatch msg ch b).st.player_ack_map = st.player_ack_map) ∧
    (∀ msgs : List Message, ∃ m,
      lookupKey ((serve_run st ch b msgs).1).player_ack_map pid = some m ∧ n ≤ m ∧
      ((serve_run st ch b msgs).1).sent_tick = st.sent_tick) := by
  refine ⟨fun msg => (dispatch_ack_shape st msg ch b).1, ?_, ?_, ?_⟩
  · intro sid pkt hka
    have ha := (dispatch_ack_shape st (Message.incoming pid sid (Frame.w3gs pkt)) ch b).2
    constructor
    · rw [ha]; simp [hka]
    · rw [ha]; simp [hka, lookupKey_bumpAck, h]
  · intro msg hother
    have ha := (dispatch_ack_shape st msg ch b).2
    rw [ha]
    cases msg with
    | incoming pid2 sid frame =>
        cases frame with
        | w3gs pkt => simp [hother pid2 sid pkt rfl]
        | clientUpdateSlotClientStatus s => rfl
    | playerConnect p s tx => rfl
    | playerDisconnect p s => rfl
  · exact fun msgs => serve_run_ack_mono msgs st ch b pid n h

/-- Counterexample to C1 as stated: starting from `State::new` (where
`sent_tick = 0` and every counter is 0), a single `OutgoingKeepAlive`
from player 1 leaves `sent_tick` at 0 but raises the player's ack
counter to 1, violating `sent_tick ≥ per_player_ack[p]`; `sent_tick`
is never incremented anywhere in the dispatcher. -/
theorem State.sent_tick_lt_ack_after_keepalive :
    let st := State.new 7 [⟨0, ⟨1, []⟩⟩]
    let o := st.dispatch
      (.incoming 1 1 (.w3gs ⟨.outgoingKeepAlive, .emptyPayload .outgoingKeepAlive⟩))
      ⟨false, 10, []⟩ true
    lookupKey o.st.player_ack_map 1 = some 1 ∧ o.st.sent_tick = 0 ∧
      ¬ ((lookupKey o.st.player_ack_map 1).getD 0 ≤ o.st.sent_tick) := by
  decide

end NodeHost

namespace NodeHost

theorem State.ack_monotone_keepalive_exact_witness :
    lookupKey (((State.new 7 [⟨0, ⟨1, []⟩⟩]).dispatch
        (.incoming 1 1 (.w3gs ⟨.outgoingKeepAlive, .emptyPayload .outgoingKeepAlive⟩))
        ⟨false, 10, []⟩ true).st).player_ack_map 1 = some 1 :=
  ((State.ack_monotone_keepalive_exact (State.new 7 [⟨0, ⟨1, []⟩⟩]) ⟨false, 10, []⟩ true
      1 0 (by decide)).2.1 1
    ⟨.outgoingKeepAlive, .emptyPayload .outgoingKeepAlive⟩ rfl).2

end NodeHost

namespace LanProxy

theorem load_loop_countFor_zero (info : LanGameInfo) (inputs : List LoadInput) :
    ∀ (sent : List Int) (pid : Int), pid ∈ sent →
      countFor pid (load_loop info sent inputs).1 = 0 := by
  induction inputs with
  | nil => intro sent pid h; simp [load_loop, countFor]
  | cons inp rest ih =>
      intro sent pid h
      cases inp with
      | client pkt =>
          cases htid : pkt.type_id <;>
            simp only [load_loop, htid] <;>
            first
              | (exact ih sent pid h)
              | (simp [countFor]; done)
              | (rcases hll : load_loop info sent rest with ⟨ems, r⟩
                 have hrec := ih sent pid h
                 rw [hll] at hrec
                 simp [countFor, List.countP_cons] at hrec ⊢
                 exact hrec)
      | clientClosed => simp [load_loop, countFor]
      | pre player_id status =>
          cases status <;> simp only [load_loop] <;>
            first
              | (exact ih sent pid h)
              | skip
          by_cases hcond : player_id ≠ info.my_player_id ∧ ¬ player_id ∈ sent
          · rcases hg : get_player_loaded_packet info player_id with ge | pkt
            · simp [hcond, hg, countFor]
            · have hne : player_id ≠ pid := fun hh => hcond.2 (hh ▸ h)
              rcases hll : load_loop info (player_id :: sent) rest with ⟨ems, r⟩
              have hrec := ih (player_id :: sent) pid (List.mem_cons_of_mem _ h)
              rw [hll] at hrec
              simp [hcond, hg, hll, countFor, List.countP_cons, hne] at hrec ⊢
              exact hrec
          · simp only [hcond, if_false]
            exact ih sent pid h
      | preClosed => simp [load_loop, countFor]
      | nodeStatus v =>
          rcases v with _ | s
          · exact ih sent pid h
          · cases s <;>
              first
                | (exact ih sent pid h)
                | (simp [load_loop, countFor])
      | nodeStatusClosed => simp [load_loop, countFor]

theorem load_loop_countFor_le_one (info : LanGameInfo) (inputs : List LoadInput) :
    ∀ (sent : List Int) (pid : Int), countFor pid (load_loop info sent inputs).1 ≤ 1 := by
  induction inputs with
  | nil => intro sent pid; simp [load_loop, countFor]
  | cons inp rest ih =>
      intro sent pid
      cases inp with
      | client pkt =>
          cases htid : pkt.type_id <;>
            simp only [load_loop, htid] <;>
            first
              | (exact ih sent pid)
              | (simp [countFor]; done)
              | (rcases hll : load_loop info sent rest with ⟨ems, r⟩
                 have hrec := ih sent pid
                 rw [hll] at hrec
                 simp [countFor, List.countP_cons] at hrec ⊢
                 exact hrec)
      | clientClosed => simp [load_loop, countFor]
      | pre player_id status =>
          cases status <;> simp only [load_loop] <;>
            first
              | (exact ih sent pid)
              | skip
          by_cases hcond : player_id ≠ info.my_player_id ∧ ¬ player_id ∈ sent
          · rcases hg : get_player_loaded_packet info player_id with ge | pkt
            · simp [hcond, hg, countFor]
            · rcases hll : load_loop info (player_id :: sent) rest with ⟨ems, r⟩
              by_cases hpe : player_id = pid
              · subst hpe
                have hz := load_loop_countFor_zero info rest (player_id :: sent) player_id
                  (List.mem_cons_self _ _)
                rw [hll] at hz
                simp only [countFor] at hz
                simp [hcond, hg, hll, countFor, List.countP_cons, hz]
              · have hrec := ih (player_id :: sent) pid
                rw [hll] at hrec
                simp [hcond, hg, hll, countFor, List.countP_cons, hpe] at hrec ⊢
                exact hrec
          · simp only [hcond, if_false]
            exact ih sent pid
      | preClosed => simp [load_loop, countFor]
      | nodeStatus v =>
          rcases v with _ | s
          · exact ih sent pid
          · cases s <;>
              first
                | (exact ih sent pid)
                | (simp [load_loop, countFor])
      | nodeStatusClosed => simp [load_loop, countFor]

end LanProxy

namespace LanProxy

theorem collect_initial_not_mem (info : LanGameInfo) :
    ∀ (mp : List (Int × SlotClientStatus)) (sent : List Int) (ems : List LoadEmission),
      collect_initial info mp = .ok (sent, ems) →
      ∀ pid : Int, pid ∉ mp.map Prod.fst → countFor pid ems = 0 ∧ pid ∉ sent := by
  intro mp
  induction mp with
  | nil =>
      intro sent ems hok pid hpid
      simp only [collect_initial, Except.ok.injEq] at hok
      obtain ⟨h1, h2⟩ := Prod.mk.inj hok
      subst h1
      subst h2
      simp [countFor]
  | cons e rest ih =>
      intro sent ems hok pid hpid
      obtain ⟨k, status⟩ := e
      simp only [List.map_cons, List.mem_cons] at hpid
      push_neg at hpid
      simp only [collect_initial] at hok
      by_cases hst : status = SlotClientStatus.loaded
      · subst hst
        rw [if_pos rfl] at hok
        by_cases hk : k ≠ info.my_player_id
        · rw [if_pos hk] at hok
          rcases hg : get_player_loaded_packet info k with ge | pkt
          · rw [hg] at hok
            exact Except.noConfusion hok
          · rw [hg] at hok
            rcases hci : collect_initial info rest with ce | ⟨s1, e1⟩
            · rw [hci] at hok
              exact Except.noConfusion hok
            · rw [hci] at hok
              simp only [Except.ok.injEq] at hok
              obtain ⟨h1, h2⟩ := Prod.mk.inj hok
              subst h1
              subst h2
              obtain ⟨hc0, hns⟩ := ih s1 e1 hci pid hpid.2
              have hkp : ¬ (some k = some pid) := by
                simp
                exact fun hh => hpid.1 hh.symm
              constructor
              · simp only [countFor, List.countP_cons] at hc0 ⊢
                simp [hkp, hc0]
              · simp [hpid.1, hns]
        · rw [if_neg hk] at hok
          exact ih sent ems hok pid hpid.2
      · rw [if_neg hst] at hok
        exact ih sent ems hok pid hpid.2

theorem collect_initial_nodup (info : LanGameInfo) :
    ∀ (mp : List (Int × SlotClientStatus)) (sent : List Int) (ems : List LoadEmission),
      (mp.map Prod.fst).Nodup →
      collect_initial info mp = .ok (sent, ems) →
      ∀ pid : Int, countFor pid ems ≤ 1 ∧ (0 < countFor pid ems → pid ∈ sent) := by
  intro mp
  induction mp with
  | nil =>
      intro sent ems hnd hok pid
      simp only [collect_initial, Except.ok.injEq] at hok
      obtain ⟨h1, h2⟩ := Prod.mk.inj hok
      subst h1
      subst h2
      simp [countFor]
  | cons e rest ih =>
      intro sent ems hnd hok pid
      obtain ⟨k, status⟩ := e
      simp only [List.map_cons, List.nodup_cons] at hnd
      simp only [collect_initial] at hok
      by_cases hst : status = SlotClientStatus.loaded
      · subst hst
        rw [if_pos rfl] at hok
        by_cases hk : k ≠ info.my_player_id
        · rw [if_pos hk] at hok
          rcases hg : get_player_loaded_packet info k with ge | pkt
          · rw [hg] at hok
            exact Except.noConfusion hok
          · rw [hg] at hok
            rcases hci : collect_initial info rest with ce | ⟨s1, e1⟩
            · rw [hci] at hok
              exact Except.noConfusion hok
            · rw [hci] at hok
              simp only [Except.ok.injEq] at hok
              obtain ⟨h1, h2⟩ := Prod.mk.inj hok
              subst h1
              subst h2
              by_cases hpe : pid = k
              · subst hpe
                obtain ⟨hc0, _⟩ := collect_initial_not_mem info rest s1 e1 hci pid hnd.1
                constructor
                · simp only [countFor, List.countP_cons] at hc0 ⊢
                  simp [hc0]
                · intro _
                  exact List.mem_cons_self _ _
              · have hkp : ¬ (some k = some pid) := by
                  simp
                  exact fun hh => hpe hh.symm
                obtain ⟨hle, hmem⟩ := ih s1 e1 hnd.2 hci pid
                constructor
                · simp only [countFor, List.countP_cons] at hle ⊢
                  simpa [hkp] using hle
                · intro hpos
                  simp only [countFor, List.countP_cons] at hpos
                  simp only [hkp] at hpos
                  simp at hpos
                  refine List.mem_cons_of_mem _ (hmem ?_)
                  simpa [countFor] using hpos
        · rw [if_neg hk] at hok
          exact ih sent ems hnd.2 hok pid
      · rw [if_neg hst] at hok
        exact ih sent ems hnd.2 hok pid

/-- C2: over one whole Load phase (the initial replay of the collected
status map followed by the main loop over any arrival sequence), a
`PlayerLoaded` packet generated for a given remote player id is written
to the local client at most once; the `loaded_sent` set recorded during
the initial replay suppresses duplicates from later
`PlayerStatusChange{Loaded}` pre-game events. -/
theorem load_phase_player_loaded_at_most_once (info : LanGameInfo)
    (initial : List (Int × SlotClientStatus)) (inputs : List LoadInput)
    (hnd : (initial.map Prod.fst).Nodup) (pid : Int) :
    countFor pid (handle_load_screen info initial inputs).1 ≤ 1 := by
  unfold handle_load_screen
  rcases hci : collect_initial info initial with ge | ⟨sent, ems0⟩
  · simp [countFor]
  · rcases hll : load_loop info sent inputs with ⟨ems1, r⟩
    simp only [hci, hll]
    have h0 := collect_initial_nodup info initial sent ems0 hnd hci pid
    by_cases hp : 0 < countFor pid ems0
    · have hsent := h0.2 hp
      have hz := load_loop_countFor_zero info inputs sent pid hsent
      rw [hll] at hz
      have h1 := h0.1
      simp only [countFor, List.countP_append] at *
      omega
    · have h1 := load_loop_countFor_le_one info inputs sent pid
      rw [hll] at h1
      simp only [countFor, List.countP_append] at *
      omega

theorem load_phase_player_loaded_at_most_once_witness :
    countFor 2 (handle_load_screen ⟨1, 1, [⟨2, 2, "p2"⟩, ⟨3, 3, "p3"⟩]⟩
      [(2, SlotClientStatus.loaded), (3, SlotClientStatus.loaded)]
      [.pre 2 SlotClientStatus.loaded, .pre 3 SlotClientStatus.loaded]).1 ≤ 1 :=
  load_phase_player_loaded_at_most_once ⟨1, 1, [⟨2, 2, "p2"⟩, ⟨3, 3, "p3"⟩]⟩
    [(2, SlotClientStatus.loaded), (3, SlotClientStatus.loaded)]
    [.pre 2 SlotClientStatus.loaded, .pre 3 SlotClientStatus.loaded] (by decide) 2

end LanProxy

namespace NodeHost

theorem broadcast_log_mem (pkt : Packet) (t : BroadcastTarget)
    (m : List (Int × PlayerDispatchInfo)) (hnd : (m.map Prod.fst).Nodup)
    (pid : Int) (q : Packet) :
    ((pid, q) ∈ m.filterMap (fun e =>
        if (broadcastStep pkt t e.1 e.2).2 then some (e.1, pkt) else none)) ↔
      q = pkt ∧ ∃ info, lookupKey m pid = some info ∧
        (broadcastStep pkt t pid info).2 = true := by
  constructor
  · intro hmem
    rcases List.mem_filterMap.mp hmem with ⟨⟨k, i⟩, hin, hf⟩
    by_cases hstep : (broadcastStep pkt t k i).2 = true
    · rw [if_pos hstep] at hf
      obtain ⟨h1, h2⟩ := Prod.mk.inj (Option.some.inj hf)
      subst h1
      exact ⟨h2.symm, i, lookupKey_of_mem_nodup m k i hnd hin, hstep⟩
    · rw [if_neg hstep] at hf
      exact Option.noConfusion hf
  · rintro ⟨rfl, info, hlk, hstep⟩
    exact List.mem_filterMap.mpr
      ⟨(pid, info), mem_of_lookupKey m pid info hlk, by rw [if_pos hstep]⟩

/-- C7: for every call to `Shared::broadcast`, players not matching the
target and players with no sink are skipped (their entry is unchanged
and they receive no frame); every recipient whose non-blocking send
fails because the sink is closed or at capacity has their sink cleared
(so subsequent broadcasts skip them) and still receives no frame; no
status event is emitted (broadcast returns only the updated `Shared`)
and no send error is ever propagated to the caller (the error component
is always `none`). -/
theorem Shared.broadcast_error_handling (s : Shared) (pkt : Packet) (t : BroadcastTarget)
    (hnd : (s.map.map Prod.fst).Nodup) (hlog : s.sent_log = []) :
    ∃ s2, s.broadcast pkt t = (s2, none) ∧
      ∀ (pid : Int) (info : PlayerDispatchInfo), lookupKey s.map pid = some info →
        ((t.containsId pid = false ∨ info.tx = none) →
            lookupKey s2.map pid = some info ∧ (pid, pkt) ∉ s2.sent_log) ∧
        (∀ sink : Sink, info.tx = some sink → t.containsId pid = true →
            (sink.closed = true ∨ sink.capacity ≤ sink.queue.length) →
            lookupKey s2.map pid = some { info with tx := none } ∧
              (pid, pkt) ∉ s2.sent_log) := by
  refine ⟨_, Shared.broadcast_eq s pkt t hnd, ?_⟩
  intro pid info hlk
  have hmap := lookupKey_map_fun s.map (fun a b2 => (broadcastStep pkt t a b2).1) pid
  have hnotin : (broadcastStep pkt t pid info).2 = false →
      (pid, pkt) ∉ (s.map.filterMap fun e =>
        if (broadcastStep pkt t e.1 e.2).2 then some (e.1, pkt) else none) := by
    intro hf hmem
    obtain ⟨_, info2, hlk2, hstep2⟩ := (broadcast_log_mem pkt t s.map hnd pid pkt).mp hmem
    rw [hlk] at hlk2
    obtain rfl := Option.some.inj hlk2
    rw [hstep2] at hf
    exact Bool.noConfusion hf
  constructor
  · intro hskip
    have hstep : broadcastStep pkt t pid info = (info, false) := by
      rcases hskip with hs | hs
      · simp [broadcastStep, hs]
      · by_cases ht : t.containsId pid <;> simp [broadcastStep, hs, ht]
    constructor
    · simp [hmap, hlk, hstep]
    · intro hmem
      exact hnotin (by rw [hstep]) (by simpa [hlog] using hmem)
  · intro sink htx ht hfail
    have hstep : broadcastStep pkt t pid info = ({ info with tx := none }, false) := by
      rcases hfail with hf | hf
      · simp [broadcastStep, ht, htx, hf]
      · have hnl : ¬ sink.queue.length < sink.capacity := not_lt.mpr hf
        by_cases hcl : sink.closed = true <;> simp [broadcastStep, ht, htx, hcl, hnl]
    constructor
    · simp [hmap, hlk, hstep]
    · intro hmem
      exact hnotin (by rw [hstep]) (by simpa [hlog] using hmem)

theorem Shared.broadcast_error_handling_witness :
    ∃ s2, (Shared.mk 1 [(1, PlayerDispatchInfo.mk 0 [] none [] 1)] []).broadcast
        ⟨.leaveAck, .leaveAck⟩ BroadcastTarget.everyone = (s2, none) :=
  Exists.imp (fun _ h => h.1)
    (Shared.broadcast_error_handling
      (Shared.mk 1 [(1, PlayerDispatchInfo.mk 0 [] none [] 1)] [])
      ⟨.leaveAck, .leaveAck⟩ BroadcastTarget.everyone (by decide) rfl)

end NodeHost

namespace NodeHost

/-- C4: a `ChatToHost` from a chat-banned sender whose message is an
in-game chat is dropped silently — `dispatch_chat` returns success and
the state (hence the log of outbound frames) is unchanged.  For any
other `ChatToHost` the packet's header type id is rewritten to
`ChatFromHost` and the packet is broadcast with an `AllowList`
containing exactly the message's 1-based target slot player ids
translated through the slot-to-player lookup, minus the sender's own
player id. -/
theorem State.dispatch_chat_ban_and_allowlist (st : State) (player_id : Int)
    (c : ChatMessage) (ty : PacketTypeId)
    (hnd : (st.shared.map.map Prod.fst).Nodup) :
    (player_id ∈ st.chat_banned_player_ids → c.is_in_game_chat = true →
      st.dispatch_chat player_id ⟨ty, .chat c⟩ = (st, .ok ())) ∧
    (¬ (player_id ∈ st.chat_banned_player_ids ∧ c.is_in_game_chat = true) →
      ∃ L : List Int,
        st.dispatch_chat player_id ⟨ty, .chat c⟩ =
          ({ st with shared :=
              (st.shared.broadcast ⟨.chatFromHost, .chat c⟩ (.allowList L)).1 }, .ok ()) ∧
        ∀ q : Int, (q ∈ L ↔ ∃ sid, sid ∈ c.to_players ∧
            lookupKey st.game_player_id_lookup sid = some q ∧ q ≠ player_id)) := by
  constructor
  · intro hb hig
    have hcond : (st.chat_banned_player_ids.contains player_id = true) ∧
        c.is_in_game_chat = true := ⟨by simpa using hb, hig⟩
    simp only [State.dispatch_chat]
    rw [if_pos hcond]
  · intro hn
    have hcond : ¬ ((st.chat_banned_player_ids.contains player_id = true) ∧
        c.is_in_game_chat = true) := by
      intro hh
      exact hn ⟨by simpa using hh.1, hh.2⟩
    refine ⟨c.to_players.filterMap (fun sid =>
        match lookupKey st.game_player_id_lookup sid with
        | some pid => if pid ≠ player_id then some pid else none
        | none => none), ?_, ?_⟩
    · simp only [State.dispatch_chat]
      rw [if_neg hcond]
      rw [Shared.broadcast_eq _ _ _ hnd]
    · intro q
      constructor
      · intro hq
        rcases List.mem_filterMap.mp hq with ⟨sid, hsid, hf⟩
        rcases hl : lookupKey st.game_player_id_lookup sid with _ | pid2
        · rw [hl] at hf
          simp at hf
        · rw [hl] at hf
          by_cases hne : pid2 = player_id
          · simp [hne] at hf
          · simp [hne] at hf
            subst hf
            exact ⟨sid, hsid, hl, hne⟩
      · rintro ⟨sid, hsid, hl, hne⟩
        exact List.mem_filterMap.mpr ⟨sid, hsid, by simp [hl, hne]⟩

theorem State.dispatch_chat_ban_and_allowlist_witness :
    (State.new 1 [⟨0, ⟨1, [PlayerBanType.chat]⟩⟩, ⟨1, ⟨2, []⟩⟩]).dispatch_chat 1
        ⟨.chatToHost, .chat ⟨[2], true, "hello"⟩⟩ =
      (State.new 1 [⟨0, ⟨1, [PlayerBanType.chat]⟩⟩, ⟨1, ⟨2, []⟩⟩], .ok ()) :=
  (State.dispatch_chat_ban_and_allowlist
      (State.new 1 [⟨0, ⟨1, [PlayerBanType.chat]⟩⟩, ⟨1, ⟨2, []⟩⟩]) 1
      ⟨[2], true, "hello"⟩ .chatToHost (by decide)).1 (by decide) rfl

theorem broadcastMessagePass_log (message : String) :
    ∀ m : List (Int × PlayerDispatchInfo),
      (∀ e ∈ m, ∀ sink : Sink, (e.2).tx = some sink → sink.accepts) →
      (broadcastMessagePass message m).2 = m.filterMap (fun e =>
        if (e.2).tx.isSome then
          some (e.1,
            (⟨.chatFromHost, .chatPrivateToSelf (e.2).slot_player_id message⟩ : Packet))
        else none) := by
  intro m
  induction m with
  | nil => intro _; simp [broadcastMessagePass]
  | cons e rest ih =>
      intro hacc
      obtain ⟨pid, info⟩ := e
      rcases hbm : broadcastMessagePass message rest with ⟨m1, log1⟩
      have ih2 := ih (fun e2 he sink hs => hacc e2 (List.mem_cons_of_mem _ he) sink hs)
      rw [hbm] at ih2
      simp only at ih2
      rcases htx : info.tx with _ | sink
      · have hc : info.connected = false := by simp [PlayerDispatchInfo.connected, htx]
        simp [broadcastMessagePass, hbm, hc, htx, ih2]
      · have hc : info.connected = true := by simp [PlayerDispatchInfo.connected, htx]
        have hs := hacc (pid, info) (List.mem_cons_self _ _) sink htx
        have hsend : info.send ⟨.chatFromHost, .chatPrivateToSelf info.slot_player_id message⟩ =
            ({ info with tx := some { sink with queue := sink.queue ++
                [⟨.chatFromHost, .chatPrivateToSelf info.slot_player_id message⟩] } }, none) := by
          simp [PlayerDispatchInfo.send, Sink.trySend, htx, hs.1, hs.2]
        simp [broadcastMessagePass, hbm, hc, htx, hsend, ih2]

end NodeHost

namespace NodeHost

/-- C5: if at least one player of the slot list is chat-banned,
`Dispatcher::new` arms the single start message and, at the moment the
start signal fires — before any action tick is broadcast — the tick
task pushes the literal message
"One or more players in this game have been muted." as a
`ChatFromHost` private-to-self packet to every connected player, one
packet per recipient, each addressed to that recipient's own slot
player id (stated for sinks that accept the frame); any action tick
dispatched afterwards only appends to the log, so every mute packet
precedes every action tick packet.  If no player is chat-banned, the
start broadcast does nothing. -/
theorem tick_start_mute_broadcast (slots : List PlayerSlot) (s : Shared)
    (hacc : ∀ e ∈ s.map, ∀ sink : Sink, (e.2).tx = some sink → sink.accepts)
    (hlog : s.sent_log = []) :
    (chat_banned_of slots ≠ [] →
      (tick_start_broadcast slots s).sent_log = s.map.filterMap (fun e =>
        if (e.2).tx.isSome then
          some (e.1,
            (⟨.chatFromHost, .chatPrivateToSelf (e.2).slot_player_id muteMessage⟩ : Packet))
        else none) ∧
      ∀ tk : Tick, ∃ d,
        (((tick_start_broadcast slots s).dispatch_action_tick tk).1).sent_log =
          (tick_start_broadcast slots s).sent_log ++ d) ∧
    (chat_banned_of slots = [] → tick_start_broadcast slots s = s) := by
  constructor
  · intro hne
    have hsm : start_messages_of slots = [muteMessage] := by
      simp [start_messages_of, hne]
    constructor
    · rw [tick_start_broadcast, hsm]
      simp only [List.foldl]
      rcases hbm : broadcastMessagePass muteMessage s.map with ⟨m1, log1⟩
      have hl := broadcastMessagePass_log muteMessage s.map hacc
      rw [hbm] at hl
      simp only at hl
      simp [Shared.broadcast_message, hbm, hlog, hl]
    · intro tk
      exact Shared.broadcast_log_append (tick_start_broadcast slots s) _ _
  · intro hz
    simp [tick_start_broadcast, start_messages_of, hz]

theorem tick_start_mute_broadcast_witness :
    (tick_start_broadcast [⟨0, ⟨1, [PlayerBanType.chat]⟩⟩, ⟨1, ⟨2, []⟩⟩]
        (Shared.mk 9
          [(1, PlayerDispatchInfo.mk 0 [] (some (Sink.mk false 4 [])) [] 1),
           (2, PlayerDispatchInfo.mk 0 [] (some (Sink.mk false 4 [])) [] 2)] [])).sent_log =
      [(1, (⟨.chatFromHost, .chatPrivateToSelf 1 muteMessage⟩ : Packet)),
       (2, (⟨.chatFromHost, .chatPrivateToSelf 2 muteMessage⟩ : Packet))] := by
  have hacc : ∀ e ∈ (Shared.mk 9
      [(1, PlayerDispatchInfo.mk 0 [] (some (Sink.mk false 4 [])) [] 1),
       (2, PlayerDispatchInfo.mk 0 [] (some (Sink.mk false 4 [])) [] 2)] []).map,
      ∀ sink : Sink, (e.2).tx = some sink → sink.accepts := by
    intro e he sink hs
    simp at he
    rcases he with rfl | rfl <;>
      (obtain rfl := Option.some.inj hs; decide)
  have h := (tick_start_mute_broadcast [⟨0, ⟨1, [PlayerBanType.chat]⟩⟩, ⟨1, ⟨2, []⟩⟩]
      (Shared.mk 9
        [(1, PlayerDispatchInfo.mk 0 [] (some (Sink.mk false 4 [])) [] 1),
         (2, PlayerDispatchInfo.mk 0 [] (some (Sink.mk false 4 [])) [] 2)] [])
      hacc rfl).1 (by decide)
  rw [h.1]
  rfl

end NodeHost

namespace NodeHost

theorem dispatch_leave_req_eq (st : State) (ch : ActionChan) (pid : Int) (sid : Nat)
    (reason : LeaveReason) (info player1 : PlayerDispatchInfo)
    (ackErr : Option PlayerSendError)
    (hnd : (st.shared.map.map Prod.fst).Nodup)
    (hlk : lookupKey st.shared.map pid = some info)
    (hsend : info.send ⟨.leaveAck, .leaveAck⟩ = (player1, ackErr)) :
    st.dispatch (.incoming pid sid (.w3gs ⟨.leaveReq, .leaveReq reason⟩)) ch true =
      ⟨{ st with shared :=
          { game_id := st.shared.game_id
            map := (updateKey st.shared.map pid player1.disconnect).map (fun e =>
              (e.1, (broadcastStep ⟨.playerLeft, .playerLeft sid reason⟩
                (.denyList [pid]) e.1 e.2).1))
            sent_log := (st.shared.sent_log ++
              (match ackErr with
                | none => [(pid, (⟨.leaveAck, .leaveAck⟩ : Packet))]
                | some _ => [])) ++
              (updateKey st.shared.map pid player1.disconnect).filterMap (fun e =>
                if (broadcastStep ⟨.playerLeft, .playerLeft sid reason⟩
                    (.denyList [pid]) e.1 e.2).2 then
                  some (e.1, (⟨.playerLeft, .playerLeft sid reason⟩ : Packet))
                else none) } },
        ch, [.playerStatusChange pid SlotClientStatus.left .node], .ok .continue⟩ := by
  have hnd1 : ((updateKey st.shared.map pid player1.disconnect).map Prod.fst).Nodup := by
    rw [updateKey_keys]
    exact hnd
  cases ackErr with
  | none =>
      have hbe := Shared.broadcast_eq
        { game_id := st.shared.game_id
          map := updateKey st.shared.map pid player1.disconnect
          sent_log := st.shared.sent_log ++ [(pid, (⟨.leaveAck, .leaveAck⟩ : Packet))] }
        ⟨.playerLeft, .playerLeft sid reason⟩ (.denyList [pid]) hnd1
      simp only [State.dispatch, State.dispatch_incoming_w3gs, hlk, hsend]
      rw [hbe]
      simp
  | some e2 =>
      have hbe := Shared.broadcast_eq
        { game_id := st.shared.game_id
          map := updateKey st.shared.map pid player1.disconnect
          sent_log := st.shared.sent_log ++ [] }
        ⟨.playerLeft, .playerLeft sid reason⟩ (.denyList [pid]) hnd1
      simp only [State.dispatch, State.dispatch_incoming_w3gs, hlk, hsend]
      rw [hbe]
      simp

/-- C3: when the state task receives an Incoming W3GS `LeaveReq` from a
player `pid` present in the player map, with slot player id `sid`: a
`LeaveAck` is pushed to `pid`'s own sink (best effort — it is delivered
exactly when the sink accepts it), `pid`'s send sink is dropped, a
`PlayerLeft{sid, reason}` is broadcast with a deny list containing only
the leaver — so `pid` never receives it, while every other player whose
sink is connected and accepting does — and exactly one
`PlayerStatusChange(pid, Left, Node)` event is emitted. -/
theorem State.dispatch_leave_req_props (st : State) (ch : ActionChan) (pid : Int)
    (sid : Nat) (reason : LeaveReason) (info : PlayerDispatchInfo)
    (hnd : (st.shared.map.map Prod.fst).Nodup)
    (hlk : lookupKey st.shared.map pid = some info)
    (hlog : st.shared.sent_log = []) :
    (st.dispatch (.incoming pid sid (.w3gs ⟨.leaveReq, .leaveReq reason⟩)) ch true).res =
        .ok .continue ∧
    (st.dispatch (.incoming pid sid (.w3gs ⟨.leaveReq, .leaveReq reason⟩)) ch true).events =
        [.playerStatusChange pid SlotClientStatus.left .node] ∧
    (∃ info2, lookupKey
        ((st.dispatch (.incoming pid sid (.w3gs ⟨.leaveReq, .leaveReq reason⟩)) ch
          true).st).shared.map pid = some info2 ∧ info2.tx = none) ∧
    ((pid, (⟨.playerLeft, .playerLeft sid reason⟩ : Packet)) ∉
      ((st.dispatch (.incoming pid sid (.w3gs ⟨.leaveReq, .leaveReq reason⟩)) ch
        true).st).shared.sent_log) ∧
    (∀ sink : Sink, info.tx = some sink → sink.accepts →
      (pid, (⟨.leaveAck, .leaveAck⟩ : Packet)) ∈
        ((st.dispatch (.incoming pid sid (.w3gs ⟨.leaveReq, .leaveReq reason⟩)) ch
          true).st).shared.sent_log) ∧
    (∀ (q : Int) (infq : PlayerDispatchInfo) (sink : Sink), q ≠ pid →
      lookupKey st.shared.map q = some infq → infq.tx = some sink → sink.accepts →
      (q, (⟨.playerLeft, .playerLeft sid reason⟩ : Packet)) ∈
        ((st.dispatch (.incoming pid sid (.w3gs ⟨.leaveReq, .leaveReq reason⟩)) ch
          true).st).shared.sent_log) := by
  rcases hsend : info.send ⟨.leaveAck, .leaveAck⟩ with ⟨player1, ackErr⟩
  have heq := dispatch_leave_req_eq st ch pid sid reason info player1 ackErr hnd hlk hsend
  have hnd1 : ((updateKey st.shared.map pid player1.disconnect).map Prod.fst).Nodup := by
    rw [updateKey_keys]
    exact hnd
  have hcontain : BroadcastTarget.containsId (.denyList [pid]) pid = false := by
    simp [BroadcastTarget.containsId]
  rw [heq]
  refine ⟨rfl, rfl, ?_, ?_, ?_, ?_⟩
  · refine ⟨player1.disconnect, ?_, rfl⟩
    have hm := lookupKey_map_fun (updateKey st.shared.map pid player1.disconnect)
      (fun a b2 => (broadcastStep ⟨.playerLeft, .playerLeft sid reason⟩
        (.denyList [pid]) a b2).1) pid
    have hup := lookupKey_updateKey_self st.shared.map pid player1.disconnect info hlk
    simp only [hm, hup, Option.map]
    simp [broadcastStep, hcontain]
  · intro hmem
    simp only [hlog, List.nil_append] at hmem
    rcases List.mem_append.mp hmem with hmem | hmem
    · rcases ackErr with _ | e2
      · simp at hmem
      · simp at hmem
    · obtain ⟨_, info2, hlk2, hstep2⟩ :=
        (broadcast_log_mem ⟨.playerLeft, .playerLeft sid reason⟩ (.denyList [pid])
          (updateKey st.shared.map pid player1.disconnect) hnd1 pid
          ⟨.playerLeft, .playerLeft sid reason⟩).mp hmem
      rw [broadcastStep, hcontain] at hstep2
      simp at hstep2
  · intro sink htx hs
    have hackErr : ackErr = none := by
      have : info.send ⟨.leaveAck, .leaveAck⟩ =
          ({ info with tx := some { sink with queue := sink.queue ++
            [(⟨.leaveAck, .leaveAck⟩ : Packet)] } }, none) := by
        simp [PlayerDispatchInfo.send, Sink.trySend, htx, hs.1, hs.2]
      rw [hsend] at this
      exact (Prod.mk.inj this).2
    subst hackErr
    simp [hlog]
  · intro q infq sink hq hlkq htxq hs
    have hstep : (broadcastStep ⟨.playerLeft, .playerLeft sid reason⟩
        (.denyList [pid]) q infq).2 = true := by
      have hcq : BroadcastTarget.containsId (.denyList [pid]) q = true := by
        simp [BroadcastTarget.containsId, hq]
      simp [broadcastStep, hcq, htxq, hs.1, hs.2]
    have hlkq1 : lookupKey (updateKey st.shared.map pid player1.disconnect) q = some infq := by
      rw [lookupKey_updateKey_ne st.shared.map pid q player1.disconnect (Ne.symm hq)]
      exact hlkq
    have hmem := (broadcast_log_mem ⟨.playerLeft, .playerLeft sid reason⟩ (.denyList [pid])
        (updateKey st.shared.map pid player1.disconnect) hnd1 q
        ⟨.playerLeft, .playerLeft sid reason⟩).mpr ⟨rfl, infq, hlkq1, hstep⟩
    exact List.mem_append.mpr (Or.inr hmem)

theorem State.dispatch_leave_req_props_witness :
    ((State.mk 5 0
        (Shared.mk 5
          [(1, PlayerDispatchInfo.mk 0 [] (some (Sink.mk false 4 [])) [] 1),
           (2, PlayerDispatchInfo.mk 0 [] (some (Sink.mk false 4 [])) [] 2)] [])
        [(1, 0), (2, 0)] [(1, 1), (2, 2)] []).dispatch
      (.incoming 2 2 (.w3gs ⟨.leaveReq, .leaveReq .leaveDisconnect⟩))
      ⟨false, 10, []⟩ true).res = .ok .continue ∧
    ((2, (⟨.playerLeft, .playerLeft 2 .leaveDisconnect⟩ : Packet)) ∉
      (((State.mk 5 0
          (Shared.mk 5
            [(1, PlayerDispatchInfo.mk 0 [] (some (Sink.mk false 4 [])) [] 1),
             (2, PlayerDispatchInfo.mk 0 [] (some (Sink.mk false 4 [])) [] 2)] [])
          [(1, 0), (2, 0)] [(1, 1), (2, 2)] []).dispatch
        (.incoming 2 2 (.w3gs ⟨.leaveReq, .leaveReq .leaveDisconnect⟩))
        ⟨false, 10, []⟩ true).st).shared.sent_log) := by
  have h := State.dispatch_leave_req_props
    (State.mk 5 0
      (Shared.mk 5
        [(1, PlayerDispatchInfo.mk 0 [] (some (Sink.mk false 4 [])) [] 1),
         (2, PlayerDispatchInfo.mk 0 [] (some (Sink.mk false 4 [])) [] 2)] [])
      [(1, 0), (2, 0)] [(1, 1), (2, 2)] [])
    ⟨false, 10, []⟩ 2 2 .leaveDisconnect
    (PlayerDispatchInfo.mk 0 [] (some (Sink.mk false 4 [])) [] 2)
    (by decide) (by decide) rfl
  exact ⟨h.1, h.2.2.2.1⟩

end NodeHost
